import Mathlib

/-!
Shallow embedding of the `godot-gravityfield` Rust/GDExtension library
(directional "gravity field" volumes for Godot) and verification of its
natural-language specification.

Conventions of the embedding:
* Godot `real` (f32) values are modelled as real numbers; all vector
  algebra is exact real arithmetic.
* `Vector3` / `Vector2` are modelled by explicit component structures.
* A field world orientation ("global basis") is modelled as an abstract
  norm-preserving invertible map, matching the specification statement
  that it is a pure rotation without scaling.
* Fallible code (Rust index-out-of-bounds panics, usize underflow) is
  modelled with `Option`: `none` marks a run that panics.

Source files referenced throughout: `src/gravity/util.rs`,
`src/gravity/field/*.rs`, `src/gravity/field/shaped/*.rs`,
`src/gravity/query.rs`, `src/gravity/build_trs.rs`.
-/

namespace GravityField

/-- Model of Godot `Vector3` with real components. -/
structure Vec3 where
  x : ℝ
  y : ℝ
  z : ℝ

namespace Vec3

@[ext] theorem ext3 {a b : Vec3} (hx : a.x = b.x) (hy : a.y = b.y) (hz : a.z = b.z) :
    a = b := by
  cases a; cases b; simp_all

instance : Zero Vec3 := ⟨⟨0, 0, 0⟩⟩

instance : Add Vec3 := ⟨fun a b => ⟨a.x + b.x, a.y + b.y, a.z + b.z⟩⟩

instance : Neg Vec3 := ⟨fun a => ⟨-a.x, -a.y, -a.z⟩⟩

instance : Sub Vec3 := ⟨fun a b => ⟨a.x - b.x, a.y - b.y, a.z - b.z⟩⟩

instance : SMul ℝ Vec3 := ⟨fun c a => ⟨c * a.x, c * a.y, c * a.z⟩⟩

@[simp] theorem zero_x : (0 : Vec3).x = 0 := rfl
@[simp] theorem zero_y : (0 : Vec3).y = 0 := rfl
@[simp] theorem zero_z : (0 : Vec3).z = 0 := rfl
@[simp] theorem add_x (a b : Vec3) : (a + b).x = a.x + b.x := rfl
@[simp] theorem add_y (a b : Vec3) : (a + b).y = a.y + b.y := rfl
@[simp] theorem add_z (a b : Vec3) : (a + b).z = a.z + b.z := rfl
@[simp] theorem neg_x (a : Vec3) : (-a).x = -a.x := rfl
@[simp] theorem neg_y (a : Vec3) : (-a).y = -a.y := rfl
@[simp] theorem neg_z (a : Vec3) : (-a).z = -a.z := rfl
@[simp] theorem sub_x (a b : Vec3) : (a - b).x = a.x - b.x := rfl
@[simp] theorem sub_y (a b : Vec3) : (a - b).y = a.y - b.y := rfl
@[simp] theorem sub_z (a b : Vec3) : (a - b).z = a.z - b.z := rfl
@[simp] theorem smul_x (c : ℝ) (a : Vec3) : (c • a).x = c * a.x := rfl
@[simp] theorem smul_y (c : ℝ) (a : Vec3) : (c • a).y = c * a.y := rfl
@[simp] theorem smul_z (c : ℝ) (a : Vec3) : (c • a).z = c * a.z := rfl

/-- Godot `Vector3::dot`. -/
def dot (a b : Vec3) : ℝ := a.x * b.x + a.y * b.y + a.z * b.z

/-- Godot `Vector3::length`: Euclidean norm. -/
noncomputable def vnorm (a : Vec3) : ℝ := Real.sqrt (dot a a)

theorem dot_self_nonneg (a : Vec3) : 0 ≤ dot a a := by
  unfold dot
  have hx := mul_self_nonneg a.x
  have hy := mul_self_nonneg a.y
  have hz := mul_self_nonneg a.z
  linarith

theorem vnorm_nonneg (a : Vec3) : 0 ≤ vnorm a := Real.sqrt_nonneg _

theorem vnorm_eq_zero {a : Vec3} : vnorm a = 0 ↔ a = 0 := by
  unfold vnorm
  rw [Real.sqrt_eq_zero (dot_self_nonneg a)]
  constructor
  · intro h
    unfold dot at h
    have hx : a.x = 0 := by nlinarith [sq_nonneg a.x, sq_nonneg a.y, sq_nonneg a.z]
    have hy : a.y = 0 := by nlinarith [sq_nonneg a.x, sq_nonneg a.y, sq_nonneg a.z]
    have hz : a.z = 0 := by nlinarith [sq_nonneg a.x, sq_nonneg a.y, sq_nonneg a.z]
    exact ext3 hx hy hz
  · rintro rfl
    simp [dot]

theorem vnorm_smul (c : ℝ) (a : Vec3) : vnorm (c • a) = |c| * vnorm a := by
  unfold vnorm dot
  simp only [smul_x, smul_y, smul_z]
  rw [show c * a.x * (c * a.x) + c * a.y * (c * a.y) + c * a.z * (c * a.z)
        = c ^ 2 * (a.x * a.x + a.y * a.y + a.z * a.z) by ring]
  rw [Real.sqrt_mul (sq_nonneg c), Real.sqrt_sq_eq_abs]

/-- Godot `Vector3::normalized_or_zero`: the unit vector in the same
direction, or the zero vector when the length is zero. -/
noncomputable def normalized_or_zero (a : Vec3) : Vec3 :=
  if vnorm a = 0 then 0 else (vnorm a)⁻¹ • a

/-- A vector is unit length or exactly zero. -/
def unitOrZero (a : Vec3) : Prop := vnorm a = 1 ∨ a = 0

theorem normalized_or_zero_unitOrZero (a : Vec3) : unitOrZero (normalized_or_zero a) := by
  unfold normalized_or_zero
  by_cases h : vnorm a = 0
  · right; simp [h]
  · left
    rw [if_neg h, vnorm_smul, abs_inv, abs_of_nonneg (vnorm_nonneg a)]
    field_simp

@[simp] theorem normalized_or_zero_zero : normalized_or_zero 0 = 0 := by
  unfold normalized_or_zero
  simp [vnorm, dot]

theorem normalized_or_zero_smul {c : ℝ} (hc : 0 < c) (a : Vec3) :
    normalized_or_zero (c • a) = normalized_or_zero a := by
  unfold normalized_or_zero
  rw [vnorm_smul, abs_of_pos hc]
  by_cases h : vnorm a = 0
  · simp [h]
  · have hcv : c * vnorm a ≠ 0 := by positivity
    rw [if_neg hcv, if_neg h]
    ext <;> simp <;> field_simp <;> ring

@[simp] theorem neg_zero_vec : -(0 : Vec3) = 0 := by ext <;> simp

theorem vnorm_neg (a : Vec3) : vnorm (-a) = vnorm a := by
  unfold vnorm dot
  simp only [neg_x, neg_y, neg_z]
  rw [show -a.x * -a.x + -a.y * -a.y + -a.z * -a.z
        = a.x * a.x + a.y * a.y + a.z * a.z by ring]

theorem unitOrZero_neg {a : Vec3} (h : unitOrZero a) : unitOrZero (-a) := by
  rcases h with h | h
  · left; rw [vnorm_neg]; exact h
  · right; rw [h]; simp

end Vec3

/-- Model of the 3D axis selector (`src/gravity/axis.rs`, `Axis3D`). -/
inductive Axis3D where
  | X
  | Y
  | Z
deriving DecidableEq

/-- Godot axis-unit constants used by `Axis3D::to_vector`:
`RIGHT = (1,0,0)`, `UP = (0,1,0)`, `FORWARD = (0,0,-1)`. -/
def Axis3D.to_vector : Axis3D → Vec3
  | .X => ⟨1, 0, 0⟩
  | .Y => ⟨0, 1, 0⟩
  | .Z => ⟨0, 0, -1⟩

/-- Model of `util3d::flatten_x`. -/
def flatten_x (v : Vec3) : Vec3 := ⟨0, v.y, v.z⟩

/-- Model of `util3d::flatten_y`. -/
def flatten_y (v : Vec3) : Vec3 := ⟨v.x, 0, v.z⟩

/-- Model of `util3d::flatten_z`. -/
def flatten_z (v : Vec3) : Vec3 := ⟨v.x, v.y, 0⟩

/-- World orientation of a field node, modelled as an abstract
norm-preserving invertible map on vectors (the specification states the
global basis acts as a pure rotation with no scaling). `f` applies the
rotation; `g` applies its inverse. -/
structure Rot3 where
  f : Vec3 → Vec3
  g : Vec3 → Vec3
  norm_f : ∀ v, Vec3.vnorm (f v) = Vec3.vnorm v
  norm_g : ∀ v, Vec3.vnorm (g v) = Vec3.vnorm v
  f_g : ∀ v, f (g v) = v
  g_f : ∀ v, g (f v) = v

/-- The identity world orientation. -/
def Rot3.idRot : Rot3 where
  f := id
  g := id
  norm_f := fun _ => rfl
  norm_g := fun _ => rfl
  f_g := fun _ => rfl
  g_f := fun _ => rfl

theorem Rot3.f_zero (R : Rot3) : R.f 0 = 0 := by
  have h := R.norm_f 0
  rw [Vec3.vnorm_eq_zero.mpr rfl] at h
  exact Vec3.vnorm_eq_zero.mp h

theorem Rot3.g_zero (R : Rot3) : R.g 0 = 0 := by
  have h := R.norm_g 0
  rw [Vec3.vnorm_eq_zero.mpr rfl] at h
  exact Vec3.vnorm_eq_zero.mp h

/-- Shared `if inverted { -up } else { up }` pattern of every field variant. -/
def applyInverted (inverted : Bool) (up : Vec3) : Vec3 :=
  if inverted then -up else up

theorem applyInverted_unitOrZero {inverted : Bool} {up : Vec3}
    (h : Vec3.unitOrZero up) : Vec3.unitOrZero (applyInverted inverted up) := by
  unfold applyInverted
  cases inverted
  · simpa using h
  · simpa using Vec3.unitOrZero_neg h

/-- Model of a Godot `Plane` with unit normal: the set of points `p` with
`dot normal p = d`. -/
structure Plane3 where
  normal : Vec3
  d : ℝ

namespace Plane3

/-- Godot `Plane::is_point_over`: true when the point is on the normal side. -/
def is_point_over (pl : Plane3) (p : Vec3) : Prop := pl.d < Vec3.dot pl.normal p

noncomputable instance (pl : Plane3) (p : Vec3) : Decidable (pl.is_point_over p) := by
  unfold is_point_over; infer_instance

/-- Godot `Plane::distance_to`: signed distance from the plane. -/
def distance_to (pl : Plane3) (p : Vec3) : ℝ := Vec3.dot pl.normal p - pl.d

/-- Godot `Plane::project`: orthogonal projection onto the plane. -/
def project (pl : Plane3) (p : Vec3) : Vec3 := p - pl.distance_to p • pl.normal

end Plane3

/-- Model of `BridgePoint` (`src/gravity/field/bridge3d.rs`). The referenced
field is held behind a dynamic reference (`DynGd<Area3D, dyn Field>`); the
embedding keeps its observable interface: its `global_up` evaluator `up` and
its world pose `(rot, origin)` used by `get_global_plane`. `local_plane` is
the delimiting plane in the referenced field local space. -/
structure BridgePoint3 where
  up : Vec3 → Vec3
  rot : Rot3
  origin : Vec3
  local_plane : Plane3

/-- Model of `BridgePoint::get_global_plane`: the referenced field world
transform applied to the local plane, specialized to a rigid transform with
a unit plane normal (`normal` rotates, `d` gains the offset of the moved
plane point along the new normal). -/
def BridgePoint3.get_global_plane (bp : BridgePoint3) : Plane3 :=
  ⟨bp.rot.f bp.local_plane.normal,
    bp.local_plane.d + Vec3.dot (bp.rot.f bp.local_plane.normal) bp.origin⟩

/-- Model of `InsideData`: data recorded for a bridge point whose plane has
the queried position on its over side. `tan_angle` and `weight` start at 0
as in `InsideData::new`. -/
structure InsideData where
  up : Vec3
  translation : Vec3
  distance : ℝ
  tan_angle : ℝ
  weight : ℝ

instance : Inhabited InsideData := ⟨⟨0, 0, 0, 0, 0⟩⟩

/-- Model of `OutsideData`. -/
structure OutsideData where
  up : Vec3
  distance : ℝ

instance : Inhabited OutsideData := ⟨⟨0, 0⟩⟩

/-- Godot `Vector3::angle_to`, written with `arccos`. The engine computes
`atan2(cross(a,b).length, dot(a,b))`, which for nonzero arguments equals
the `arccos` of the normalized dot product; both land in `[0, pi]`. -/
noncomputable def angle_to (a b : Vec3) : ℝ :=
  Real.arccos (Vec3.dot a b / (Vec3.vnorm a * Vec3.vnorm b))

/-- Model of `InsideData::compute_tangent_angle`: the tangent of half the
angle between this translation and the next one. -/
noncomputable def tan_half_angle (a b : Vec3) : ℝ := Real.tan (angle_to a b * 0.5)

/-- Build the `InsideData` entry for a bridge point whose plane has the
position on its over side (`bridge3d.rs` lines 82-91). -/
noncomputable def mkInside (bp : BridgePoint3) (p : Vec3) : InsideData :=
  let plane := bp.get_global_plane
  let projected := plane.project p
  { up := bp.up projected
    translation := p - projected
    distance := plane.distance_to p
    tan_angle := 0
    weight := 0 }

/-- Build the `OutsideData` entry for a bridge point whose plane has the
position on or under it (`bridge3d.rs` lines 92-97). -/
noncomputable def mkOutside (bp : BridgePoint3) (p : Vec3) : OutsideData :=
  { up := bp.up p
    distance := bp.get_global_plane.distance_to p }

/-- The classification loop of `GravityBridge3D::global_up` (lines 79-98):
each point lands, in configured order, in the `above` list when the
position is over its plane and in the `below` list otherwise. -/
noncomputable def classifyPoints (points : List BridgePoint3) (p : Vec3) :
    List InsideData × List OutsideData :=
  match points with
  | [] => ([], [])
  | bp :: rest =>
      let (above, below) := classifyPoints rest p
      if bp.get_global_plane.is_point_over p then (mkInside bp p :: above, below)
      else (above, mkOutside bp p :: below)

/-- The tangent-half-angle pass (`bridge3d.rs` lines 108-114): entry `i`
stores the tangent of half the angle between translation `i` and
translation `i+1`, cyclically. -/
noncomputable def withTans (l : List InsideData) : List InsideData :=
  l.mapIdx fun i d =>
    { d with tan_angle :=
        tan_half_angle d.translation ((l.getD ((i + 1) % l.length) default).translation) }

/-- The weight pass of `GravityBridge3D::global_up` (lines 116-122), written
as the net effect of its writes. The loop assigns
`weight[i] = (tan_angle[i-1] + tan_angle[i]) / distance[i]` for
`i = 1 .. len-1`, and the trailing statement then overwrites the LAST entry
with `(tan_angle[last] + tan_angle[last]) / distance[last]` (it reads
`above[last].tan_angle` as the previous tangent). Entry 0 keeps the initial
weight 0 from `InsideData::new`. -/
noncomputable def withWeights (l : List InsideData) : List InsideData :=
  l.mapIdx fun i d =>
    if i = 0 then d
    else if i = l.length - 1 then { d with weight := (d.tan_angle + d.tan_angle) / d.distance }
    else { d with weight := ((l.getD (i - 1) default).tan_angle + d.tan_angle) / d.distance }

/-- The blending sum `sum_up += data.up * data.weight` (lines 127-130). -/
noncomputable def weightedSum (l : List InsideData) : Vec3 :=
  l.foldl (fun acc d => acc + d.weight • d.up) 0

/-- The inverse-distance denominator of the below branch (lines 144-148). -/
noncomputable def belowDenominator (l : List OutsideData) : ℝ :=
  l.foldl (fun acc d => acc + 1 / d.distance) 0

/-- The below-branch blending sum (lines 151-156). -/
noncomputable def belowSum (l : List OutsideData) : Vec3 :=
  let denominator := belowDenominator l
  l.foldl (fun acc d => acc + ((1 / d.distance) / denominator) • d.up) 0

/-- Model of `GravityBridge3D::global_up` (`bridge3d.rs` lines 67-164). -/
noncomputable def bridge_global_up (points : List BridgePoint3) (p : Vec3) : Vec3 :=
  if points.isEmpty then 0
  else
    let above := (classifyPoints points p).1
    let below := (classifyPoints points p).2
    if below.isEmpty then
      if 1 < above.length then
        Vec3.normalized_or_zero (weightedSum (withWeights (withTans above)))
      else (above.headD default).up
    else
      if 1 < below.length then Vec3.normalized_or_zero (belowSum below)
      else (below.headD default).up

/-- Model of the 3D field variants of the library
(`flat.rs`, `center.rs`, `axial3d.rs`, `conic3d.rs`, `shaped.rs`,
`bridge3d.rs`). A bridge holds its ordered `BridgePoint` list. -/
inductive Field3 where
  | flat (axis : Axis3D) (inverted : Bool)
  | center (inverted : Bool)
  | axial (axis : Axis3D) (inverted : Bool)
  | conic (height radius : ℝ) (axis : Axis3D) (inverted : Bool)
  | shaped (inverted : Bool)
  | bridge (points : List BridgePoint3)

/-- Model of `GravityConic3D::local_up` before inversion: flatten along the
chosen axis, then set the axis coordinate to `radius * length(flattened)`
and scale the two other coordinates by `height`, then normalize. -/
noncomputable def conic_vec (height radius : ℝ) (axis : Axis3D) (p : Vec3) : Vec3 :=
  match axis with
  | .X =>
      let v := flatten_x p
      Vec3.normalized_or_zero ⟨radius * v.vnorm, v.y * height, v.z * height⟩
  | .Y =>
      let v := flatten_y p
      Vec3.normalized_or_zero ⟨v.x * height, radius * v.vnorm, v.z * height⟩
  | .Z =>
      let v := flatten_z p
      Vec3.normalized_or_zero ⟨v.x * height, v.y * height, radius * v.vnorm⟩

/-- Model of `Field::local_up` for each 3D variant. Every variant except the
bridge ignores its world rotation; the bridge derives its local up from its
global up through the inverse global basis (`bridge3d.rs` lines 62-64). -/
noncomputable def local_up (R : Rot3) (f : Field3) (p : Vec3) : Vec3 :=
  match f with
  | .flat axis inverted => applyInverted inverted axis.to_vector
  | .center inverted => applyInverted inverted (Vec3.normalized_or_zero p)
  | .axial axis inverted =>
      applyInverted inverted
        (Vec3.normalized_or_zero
          (match axis with
           | .X => flatten_x p
           | .Y => flatten_y p
           | .Z => flatten_z p))
  | .conic height radius axis inverted => applyInverted inverted (conic_vec height radius axis p)
  | .shaped inverted => applyInverted inverted 0
  | .bridge points => R.g (bridge_global_up points p)

/-- Model of `Field::global_up` for each 3D variant: every variant except
the bridge routes through `util3d::global_direction`
(`global_basis * local_up(position)`); the bridge computes its global up
directly. -/
noncomputable def global_up (R : Rot3) (f : Field3) (p : Vec3) : Vec3 :=
  match f with
  | .bridge points => bridge_global_up points p
  | f => R.f (local_up R f p)

/-- Model of Godot `Vector2` with real components. -/
structure Vec2 where
  x : ℝ
  y : ℝ

namespace Vec2

@[ext] theorem ext2 {a b : Vec2} (hx : a.x = b.x) (hy : a.y = b.y) : a = b := by
  cases a; cases b; simp_all

instance : Zero Vec2 := ⟨⟨0, 0⟩⟩

instance : Neg Vec2 := ⟨fun a => ⟨-a.x, -a.y⟩⟩

instance : SMul ℝ Vec2 := ⟨fun c a => ⟨c * a.x, c * a.y⟩⟩

@[simp] theorem zero2_x : (0 : Vec2).x = 0 := rfl
@[simp] theorem zero2_y : (0 : Vec2).y = 0 := rfl
@[simp] theorem neg2_x (a : Vec2) : (-a).x = -a.x := rfl
@[simp] theorem neg2_y (a : Vec2) : (-a).y = -a.y := rfl
@[simp] theorem smul2_x (c : ℝ) (a : Vec2) : (c • a).x = c * a.x := rfl
@[simp] theorem smul2_y (c : ℝ) (a : Vec2) : (c • a).y = c * a.y := rfl

/-- Godot `Vector2::length`. -/
noncomputable def vnorm (a : Vec2) : ℝ := Real.sqrt (a.x * a.x + a.y * a.y)

theorem vnorm2_nonneg (a : Vec2) : 0 ≤ vnorm a := Real.sqrt_nonneg _

theorem vnorm2_eq_zero {a : Vec2} : vnorm a = 0 ↔ a = 0 := by
  unfold vnorm
  rw [Real.sqrt_eq_zero (by nlinarith [mul_self_nonneg a.x, mul_self_nonneg a.y])]
  constructor
  · intro h
    have hx : a.x = 0 := by nlinarith [mul_self_nonneg a.x, mul_self_nonneg a.y]
    have hy : a.y = 0 := by nlinarith [mul_self_nonneg a.x, mul_self_nonneg a.y]
    exact ext2 hx hy
  · rintro rfl; simp

theorem vnorm2_smul (c : ℝ) (a : Vec2) : vnorm (c • a) = |c| * vnorm a := by
  unfold vnorm
  simp only [smul2_x, smul2_y]
  rw [show c * a.x * (c * a.x) + c * a.y * (c * a.y)
        = c ^ 2 * (a.x * a.x + a.y * a.y) by ring]
  rw [Real.sqrt_mul (sq_nonneg c), Real.sqrt_sq_eq_abs]

/-- Godot `Vector2::normalized_or_zero`. -/
noncomputable def normalized_or_zero (a : Vec2) : Vec2 :=
  if vnorm a = 0 then 0 else (vnorm a)⁻¹ • a

/-- A 2D vector is unit length or exactly zero. -/
def unitOrZero (a : Vec2) : Prop := vnorm a = 1 ∨ a = 0

theorem normalized_or_zero2_unitOrZero (a : Vec2) : unitOrZero (normalized_or_zero a) := by
  unfold normalized_or_zero
  by_cases h : vnorm a = 0
  · right; simp [h]
  · left
    rw [if_neg h, vnorm2_smul, abs_inv, abs_of_nonneg (vnorm2_nonneg a)]
    field_simp

theorem vnorm2_neg (a : Vec2) : vnorm (-a) = vnorm a := by
  unfold vnorm
  simp only [neg2_x, neg2_y]
  rw [show -a.x * -a.x + -a.y * -a.y = a.x * a.x + a.y * a.y by ring]

theorem unitOrZero2_neg {a : Vec2} (h : unitOrZero a) : unitOrZero (-a) := by
  rcases h with h | h
  · left; rw [vnorm2_neg]; exact h
  · right; rw [h]; ext <;> simp

end Vec2

/-- Godot `Vector2::rotated(angle)`: counter-clockwise rotation in Godot
screen coordinates. -/
noncomputable def rotated2 (angle : ℝ) (v : Vec2) : Vec2 :=
  ⟨v.x * Real.cos angle - v.y * Real.sin angle,
   v.x * Real.sin angle + v.y * Real.cos angle⟩

theorem rotated2_vnorm (angle : ℝ) (v : Vec2) : (rotated2 angle v).vnorm = v.vnorm := by
  unfold rotated2 Vec2.vnorm
  have h := Real.sin_sq_add_cos_sq angle
  rw [show (v.x * Real.cos angle - v.y * Real.sin angle) *
          (v.x * Real.cos angle - v.y * Real.sin angle) +
          (v.x * Real.sin angle + v.y * Real.cos angle) *
          (v.x * Real.sin angle + v.y * Real.cos angle)
        = (v.x * v.x + v.y * v.y) * (Real.sin angle ^ 2 + Real.cos angle ^ 2) by ring]
  rw [h, mul_one]

/-- Model of the 2D axis selector (`src/gravity/axis.rs`, `Axis2D`). -/
inductive Axis2D where
  | X
  | Y
deriving DecidableEq

/-- Godot 2D axis-unit constants used by `Axis2D::to_vector`:
`RIGHT = (1,0)`, `UP = (0,-1)` (screen coordinates, y points down). -/
def Axis2D.to_vector : Axis2D → Vec2
  | .X => ⟨1, 0⟩
  | .Y => ⟨0, -1⟩

/-- Shared `if inverted { -up } else { up }` pattern, 2D version. -/
def applyInverted2 (inverted : Bool) (up : Vec2) : Vec2 :=
  if inverted then -up else up

/-- Model of the 2D field variants (`flat.rs`, `center.rs`, `shaped.rs`
instantiate their macros for 2D; there is no 2D axial, conic or bridge). -/
inductive Field2 where
  | flat (axis : Axis2D) (inverted : Bool)
  | center (inverted : Bool)
  | shaped (inverted : Bool)

/-- Model of `Field::local_up` for each 2D variant. -/
noncomputable def local_up2 (f : Field2) (p : Vec2) : Vec2 :=
  match f with
  | .flat axis inverted => applyInverted2 inverted axis.to_vector
  | .center inverted => applyInverted2 inverted (Vec2.normalized_or_zero p)
  | .shaped inverted => applyInverted2 inverted 0

/-- Model of `Field::global_up` for each 2D variant, through
`util2d::global_direction`: `local_up(position).rotated(global_rotation)`. -/
noncomputable def global_up2 (angle : ℝ) (f : Field2) (p : Vec2) : Vec2 :=
  rotated2 angle (local_up2 f p)

/-!
Query resolver (`src/gravity/query.rs`, macro `gravity_query`, method
`gravity_direction`). A physics query result is an opaque collider that may
or may not implement the `Field` capability (`Dynamic::try_from_variant`);
the embedding keeps each overlapping volume as `Option FieldRef`: `none`
when the collider is not a gravity field. A `FieldRef` carries the
observable interface of a referenced field: its priority level and its
`global_up` evaluator.
-/

/-- Dynamic reference to an overlapping gravity field. -/
structure FieldRef where
  level : ℤ
  up : Vec3 → Vec3

/-- Rust `i32::MIN`, the initial value of the tracked priority level
(`Level = i32`, `let mut level = Level::MIN`). -/
def levelMin : ℤ := -(2 ^ 31)

/-- One step of the resolver scan (`query.rs` lines 93-113): a strictly
higher level resets the aggregate and the contributor list, an equal level
accumulates, a lower level is ignored, and a non-field collider is skipped. -/
noncomputable def resolveStep (p : Vec3) (acc : ℤ × Vec3 × List FieldRef)
    (result : Option FieldRef) : ℤ × Vec3 × List FieldRef :=
  match result with
  | none => acc
  | some field =>
      let (level, up, fields) := acc
      if level < field.level then (field.level, field.up p, [field])
      else if field.level = level then (level, up + field.up p, fields ++ [field])
      else acc

/-- Model of `gravity_direction` (`query.rs` lines 67-118): `none` when the
spatial query reports no overlapping volume, otherwise the scan result with
the aggregate normalized at the end. -/
noncomputable def gravity_direction (results : List (Option FieldRef)) (p : Vec3) :
    Option (Vec3 × List FieldRef) :=
  if results.isEmpty then none
  else
    let state := results.foldl (resolveStep p) (levelMin, 0, [])
    some (Vec3.normalized_or_zero state.2.1, state.2.2)

/-- Written from the spec, for comparison with `gravity_direction`: the
highest priority level among the overlapping gravity fields (`levelMin`
when there is none). -/
def specWinningLevel (valid : List FieldRef) : ℤ :=
  valid.foldl (fun m f => max m f.level) levelMin

/-- Written from the spec, for comparison with `gravity_direction`: the
overlapping gravity fields at the winning level, in query order. -/
def specWinners (valid : List FieldRef) : List FieldRef :=
  valid.filter fun f => f.level = specWinningLevel valid

/-- Sum of the `global_up` vectors of a list of fields at a position. -/
noncomputable def sumUps (fields : List FieldRef) (p : Vec3) : Vec3 :=
  fields.foldl (fun acc f => acc + f.up p) 0

/-- Written from the spec, for comparison with `gravity_direction`: no
overlapping volume gives no field; otherwise the result is the normalized
sum of the winning-level fields over the contributor list. -/
noncomputable def spec_resolver (results : List (Option FieldRef)) (p : Vec3) :
    Option (Vec3 × List FieldRef) :=
  if results.isEmpty then none
  else
    let valid := results.filterMap id
    some (Vec3.normalized_or_zero (sumUps (specWinners valid) p), specWinners valid)

/-!
Ring shape generator (`src/gravity/field/shaped/ring3d.rs`).
The four internal geometry representations are abstracted to their
constructor choice; the parameter state and its setters are modelled in
full.
-/

/-- The constructor chosen for the ring internal representation. -/
inductive RingRepr where
  | torus
  | flat
  | tube
  | bolt
deriving DecidableEq

/-- The representation selection of `GravityShapeRing3D::colliders`
(`ring3d.rs` lines 211-248): `thin_border = inner >= outer`,
`filled = inner <= 0`, tube/bolt when the height is positive, torus/flat
otherwise. -/
noncomputable def ringChooseRepr (outer_radius inner_radius height : ℝ) : RingRepr :=
  let thin_border := inner_radius ≥ outer_radius
  let filled := inner_radius ≤ 0
  if 0 < height then
    if thin_border ∨ filled then .tube else .bolt
  else
    if thin_border ∨ filled then .torus else .flat

/-- Parameter state of `GravityShapeRing3D`, with the lazily generated
internal representation (`internal : Option Internal`, abstracted to the
chosen constructor). -/
structure RingState where
  internal : Option RingRepr
  outer_radius : ℝ
  inner_radius : ℝ
  height : ℝ
  edge_radius : ℝ
  vertex_count : ℕ

/-- `GravityShapeRing3D` defaults (`IResource::init`). -/
def ringInit : RingState :=
  { internal := none
    outer_radius := 15
    inner_radius := 0
    height := 0
    edge_radius := 0
    vertex_count := 24 }

/-- Model of `set_outer_radius`: clamps the inner radius down to keep
`inner <= outer`, and invalidates the cache. -/
noncomputable def set_outer_radius (radius : ℝ) (s : RingState) : RingState :=
  { s with
    outer_radius := radius
    inner_radius := min s.inner_radius radius
    internal := none }

/-- Model of `set_inner_radius`: clamps the outer radius up to keep
`inner <= outer`, and invalidates the cache. -/
noncomputable def set_inner_radius (radius : ℝ) (s : RingState) : RingState :=
  { s with
    inner_radius := radius
    outer_radius := max s.outer_radius radius
    internal := none }

/-- Model of `set_height`. -/
def set_height (height : ℝ) (s : RingState) : RingState :=
  { s with height := height, internal := none }

/-- Model of `set_edge_radius` on the ring. -/
def ring_set_edge_radius (radius : ℝ) (s : RingState) : RingState :=
  { s with edge_radius := radius, internal := none }

/-- Model of `set_vertex_count`. -/
def set_vertex_count (count : ℕ) (s : RingState) : RingState :=
  { s with vertex_count := count, internal := none }

/-- A ring setter call. -/
inductive RingOp where
  | outer (radius : ℝ)
  | inner (radius : ℝ)
  | height (height : ℝ)
  | edge (radius : ℝ)
  | vertex (count : ℕ)

/-- Apply one ring setter call. -/
noncomputable def applyRingOp (s : RingState) : RingOp → RingState
  | .outer radius => set_outer_radius radius s
  | .inner radius => set_inner_radius radius s
  | .height h => set_height h s
  | .edge radius => ring_set_edge_radius radius s
  | .vertex count => set_vertex_count count s

/-- Apply a sequence of ring setter calls in order. -/
noncomputable def applyRingOps (s : RingState) (ops : List RingOp) : RingState :=
  ops.foldl applyRingOp s

/-- Model of `GravityShapeRing3D::colliders` restricted to the cache and
representation choice: reuse the cached representation, otherwise select
one from the current parameters and cache it. -/
noncomputable def ring_colliders_repr (s : RingState) : RingRepr × RingState :=
  match s.internal with
  | some repr => (repr, s)
  | none =>
      let repr := ringChooseRepr s.outer_radius s.inner_radius s.height
      (repr, { s with internal := some repr })

/-!
Collision primitives and transforms (`src/gravity/build_trs.rs` and the
shape generators). A 3D basis is kept as its three rows, as produced by
`Basis::from_rows` in `util3d::axis_aligned_basis`.
-/

/-- A 3D basis as three rows. -/
def Basis3M := Vec3 × Vec3 × Vec3

/-- The identity basis. -/
def basisIdentity : Basis3M := (⟨1, 0, 0⟩, ⟨0, 1, 0⟩, ⟨0, 0, 1⟩)

/-- `util3d::BASIS_X = axis_aligned_basis(Axis3D::Z, 1)`: rotation of a
quarter turn about Z. -/
def BASIS_X : Basis3M := (⟨0, -1, 0⟩, ⟨1, 0, 0⟩, ⟨0, 0, 1⟩)

/-- `util3d::BASIS_Y = Basis::IDENTITY`. -/
def BASIS_Y : Basis3M := basisIdentity

/-- `util3d::BASIS_Z = axis_aligned_basis(Axis3D::X, 1)`: rotation of a
quarter turn about X. -/
def BASIS_Z : Basis3M := (⟨1, 0, 0⟩, ⟨0, 0, -1⟩, ⟨0, 1, 0⟩)

/-- A 3D transform: basis plus origin. -/
def Trs3 := Basis3M × Vec3

/-- The identity 3D transform. -/
def trs3Identity : Trs3 := (basisIdentity, 0)

/-- A 2D basis as its two basis vectors (`build_trs.rs`, `Basis2`). -/
def Basis2M := Vec2 × Vec2

/-- `util2d::ROT_X`. -/
def ROT_X : Basis2M := (⟨0, 1⟩, ⟨-1, 0⟩)

/-- `util2d::ROT_Y`. -/
def ROT_Y : Basis2M := (⟨1, 0⟩, ⟨0, 1⟩)

/-- A 2D transform: basis columns plus origin
(`Transform2D::from_cols(rot[0], rot[1], position)`). -/
def Trs2 := Basis2M × Vec2

/-- The identity 2D transform. -/
def trs2Identity : Trs2 := (ROT_Y, 0)

/-- Model of `TransformBuilder3D`: a set of rotations and a set of
positions. -/
structure TransformBuilder3 where
  rotations : List Basis3M
  positions : List Vec3

/-- Model of `TransformBuilder3D::build`: plain array indexing; an index
out of bounds is a Rust panic, modelled as `none`. -/
def TransformBuilder3.build (tb : TransformBuilder3) (index_rot index_pos : ℕ) :
    Option Trs3 :=
  match tb.rotations.get? index_rot, tb.positions.get? index_pos with
  | some rot, some pos => some (rot, pos)
  | _, _ => none

/-- Model of `TransformBuilder2D`. -/
structure TransformBuilder2 where
  rotations : List Basis2M
  positions : List Vec2

/-- Model of `TransformBuilder2D::build`: plain array indexing; an index
out of bounds is a Rust panic, modelled as `none`. -/
def TransformBuilder2.build (tb : TransformBuilder2) (index_rot index_pos : ℕ) :
    Option Trs2 :=
  match tb.rotations.get? index_rot, tb.positions.get? index_pos with
  | some rot, some pos => some (rot, pos)
  | _, _ => none

/-- 3D collision primitive descriptors used by the generators. -/
inductive Prim3 where
  | box (size : Vec3)
  | capsule (radius height : ℝ)
  | convex (points : List Vec3)

/-- 2D collision primitive descriptors used by the generators. -/
inductive Prim2 where
  | rectangle (size : Vec2)
  | capsule (radius height : ℝ)

/-!
Cuboid shape generator (`src/gravity/field/shaped/cuboid.rs`).
-/

/-- The three face boxes of `inner3d::Internal::new` (absent when hollow):
each box is the full size grown by the edge diameter along its own axis. -/
def cuboid3Faces (size : Vec3) (edge_radius : ℝ) (hollow : Bool) : List (Prim3 × Trs3) :=
  let diameter := edge_radius * 2
  if hollow then []
  else
    [(.box ⟨size.x + diameter, size.y, size.z⟩, trs3Identity),
     (.box ⟨size.x, size.y + diameter, size.z⟩, trs3Identity),
     (.box ⟨size.x, size.y, size.z + diameter⟩, trs3Identity)]

/-- The three edge groups of `inner3d::Internal::new`: one capsule per
axis, with a transform builder holding the four sign-combination
positions of the two other axes. -/
def cuboid3Edges (size : Vec3) (edge_radius : ℝ) : List (Prim3 × TransformBuilder3) :=
  let diameter := edge_radius * 2
  [(.capsule edge_radius (size.x + diameter),
    { rotations := [BASIS_X]
      positions := [⟨0, size.y, size.z⟩, ⟨0, size.y, -size.z⟩,
                    ⟨0, -size.y, -size.z⟩, ⟨0, -size.y, size.z⟩] }),
   (.capsule edge_radius (size.y + diameter),
    { rotations := [BASIS_Y]
      positions := [⟨size.x, 0, size.z⟩, ⟨-size.x, 0, size.z⟩,
                    ⟨-size.x, 0, -size.z⟩, ⟨size.x, 0, -size.z⟩] }),
   (.capsule edge_radius (size.z + diameter),
    { rotations := [BASIS_Z]
      positions := [⟨size.x, size.y, 0⟩, ⟨-size.x, size.y, 0⟩,
                    ⟨-size.x, -size.y, 0⟩, ⟨size.x, -size.y, 0⟩] })]

/-- The edge loop of `inner3d::Internal::colliders`: `for i in 0..4`
placements of the group capsule through `trs.build(0, i)`. -/
def edgeEntries3 (edge : Prim3 × TransformBuilder3) : Option (List (Prim3 × Trs3)) :=
  (List.range 4).mapM fun i => (edge.2.build 0 i).map fun trs => (edge.1, trs)

/-- Model of `inner3d::Internal::colliders` after `Internal::new`: the face
boxes (when filled) followed by four placements of each edge capsule.
`none` marks an out-of-bounds index panic. -/
def cuboid_colliders3 (size : Vec3) (edge_radius : ℝ) (hollow : Bool) :
    Option (List (Prim3 × Trs3)) := do
  let edges ← (cuboid3Edges size edge_radius).mapM edgeEntries3
  pure (cuboid3Faces size edge_radius hollow ++ edges.flatten)

/-- The center rectangle of `inner2d::Internal::new` (absent when hollow). -/
def cuboid2Center (size : Vec2) (hollow : Bool) : List (Prim2 × Trs2) :=
  if hollow then [] else [(.rectangle size, trs2Identity)]

/-- The two edge groups of `inner2d::Internal::new`: one capsule per axis,
with a transform builder holding the TWO sign positions of the other
axis. -/
def cuboid2Edges (size : Vec2) (edge_radius : ℝ) : List (Prim2 × TransformBuilder2) :=
  let diameter := edge_radius * 2
  [(.capsule edge_radius (size.x + diameter),
    { rotations := [ROT_X], positions := [⟨0, size.y⟩, ⟨0, -size.y⟩] }),
   (.capsule edge_radius (size.y + diameter),
    { rotations := [ROT_Y], positions := [⟨size.x, 0⟩, ⟨-size.x, 0⟩] })]

/-- The edge loop of `inner2d::Internal::colliders`: `for i in 0..4`
placements through `trs.build(0, i)`, although each 2D builder holds only
two positions. -/
def edgeEntries2 (edge : Prim2 × TransformBuilder2) : Option (List (Prim2 × Trs2)) :=
  (List.range 4).mapM fun i => (edge.2.build 0 i).map fun trs => (edge.1, trs)

/-- Model of `inner2d::Internal::colliders` after `Internal::new`: the
center rectangle (when filled) followed by the edge placements. `none`
marks an out-of-bounds index panic. -/
def cuboid_colliders2 (size : Vec2) (edge_radius : ℝ) (hollow : Bool) :
    Option (List (Prim2 × Trs2)) := do
  let edges ← (cuboid2Edges size edge_radius).mapM edgeEntries2
  pure (cuboid2Center size hollow ++ edges.flatten)

/-- Rust `f32::MIN_POSITIVE` (`real::MIN_POSITIVE`), the per-component
lower clamp `util3d::MIN_SIZE` applies to the box size. -/
noncomputable def minPositive : ℝ := (2 : ℝ) ^ (-(126 : ℤ))

theorem minPositive_pos : 0 < minPositive := by
  unfold minPositive
  positivity

/-- Godot `Vector3::coord_max`: componentwise maximum. -/
noncomputable def coord_max3 (a b : Vec3) : Vec3 := ⟨max a.x b.x, max a.y b.y, max a.z b.z⟩

/-- Parameter state of `GravityShapedCuboid3D` (the generated internal
shape cache is abstracted to its presence). -/
structure CuboidState where
  internal : Option Unit
  box_size : Vec3
  edge_radius : ℝ
  hollow : Bool

/-- `GravityShapedCuboid3D` defaults (`IResource::init`): unit box size. -/
def cuboidInit : CuboidState :=
  { internal := none, box_size := ⟨1, 1, 1⟩, edge_radius := 0, hollow := false }

/-- Model of `set_box_size`: clamps every component up to `MIN_SIZE` and
invalidates the cache. -/
noncomputable def set_box_size (size : Vec3) (s : CuboidState) : CuboidState :=
  { s with
    box_size := coord_max3 size ⟨minPositive, minPositive, minPositive⟩
    internal := none }

/-- Model of `set_edge_radius` on the cuboid. -/
def cuboid_set_edge_radius (radius : ℝ) (s : CuboidState) : CuboidState :=
  { s with edge_radius := radius, internal := none }

/-- Model of `set_hollow`. -/
def set_hollow (hollow : Bool) (s : CuboidState) : CuboidState :=
  { s with hollow := hollow, internal := none }

/-- A cuboid setter call. -/
inductive CuboidOp where
  | boxSize (size : Vec3)
  | edge (radius : ℝ)
  | hollow (hollow : Bool)

/-- Apply one cuboid setter call. -/
noncomputable def applyCuboidOp (s : CuboidState) : CuboidOp → CuboidState
  | .boxSize size => set_box_size size s
  | .edge radius => cuboid_set_edge_radius radius s
  | .hollow h => set_hollow h s

/-- Apply a sequence of cuboid setter calls in order. -/
noncomputable def applyCuboidOps (s : CuboidState) (ops : List CuboidOp) : CuboidState :=
  ops.foldl applyCuboidOp s

/-!
Curve-follower shape generator (`src/gravity/field/shaped/curve.rs`,
3D instantiation).
-/

/-- Godot `Vector3::cross`. -/
def cross (a b : Vec3) : Vec3 :=
  ⟨a.y * b.z - a.z * b.y, a.z * b.x - a.x * b.z, a.x * b.y - a.y * b.x⟩

/-- Godot `Vector3::direction_to`: the normalized vector from `a` to `b`
(zero when the points coincide). -/
noncomputable def direction_to (a b : Vec3) : Vec3 := Vec3.normalized_or_zero (b - a)

/-- Godot `is_zero_approx`: within `CMP_EPSILON = 0.00001` of zero. -/
def is_zero_approx (x : ℝ) : Prop := |x| < 1 / 100000

noncomputable instance (x : ℝ) : Decidable (is_zero_approx x) := by
  unfold is_zero_approx; infer_instance

/-- Godot `Basis::orthonormalized` applied to a basis given by columns:
Gram-Schmidt over the three column vectors, returned as columns. -/
noncomputable def orthonormalizedCols (x y z : Vec3) : Vec3 × Vec3 × Vec3 :=
  let x2 := Vec3.normalized_or_zero x
  let y2 := Vec3.normalized_or_zero (y - Vec3.dot x2 y • x2)
  let z2 := Vec3.normalized_or_zero (z - Vec3.dot x2 z • x2 - Vec3.dot y2 z • y2)
  (x2, y2, z2)

/-- Rows of the basis whose columns are the three given vectors
(`Basis::from_cols`). -/
def basisFromCols (x y z : Vec3) : Basis3M :=
  (⟨x.x, y.x, z.x⟩, ⟨x.y, y.y, z.y⟩, ⟨x.z, y.z, z.z⟩)

/-- Model of `inner3d::orient`: a transform whose Y axis points along the
direction, special-cased when the direction is vertical. -/
noncomputable def orient3 (direction center : Vec3) : Trs3 :=
  if is_zero_approx direction.x ∧ is_zero_approx direction.z then
    (basisIdentity, center)
  else
    let x_axis := cross direction ⟨0, 1, 0⟩
    let z_axis := cross x_axis direction
    let (cx, cy, cz) := orthonormalizedCols x_axis direction z_axis
    (basisFromCols cx cy cz, center)

/-- The observable interface of a configured Godot curve: its baked sample
points, its bake interval and its closest-point query (the latter two are
delegated to the engine). -/
structure CurveData where
  points : List Vec3
  interval : ℝ
  closest : Vec3 → Vec3

/-- Model of the curve `Internal::new` (`curve.rs` lines 106-127): one
capsule shape of height `bake_interval + 2 * radius`, and one transform per
loop iteration `i in 0..(points.len() - 2)`, each oriented from sample `i`
to sample `i + 1` and centered at their midpoint. The index arithmetic is
on `usize`: with fewer than two points the subtraction underflows and the
point indexing panics, modelled as `none`. -/
noncomputable def curve_internal_new (c : CurveData) (radius : ℝ) :
    Option ((ℝ × ℝ) × List Trs3) :=
  if c.points.length < 2 then none
  else
    some ((radius, c.interval + radius * 2),
      (List.range (c.points.length - 2)).map fun i =>
        let p0 := c.points.getD i 0
        let p1 := c.points.getD (i + 1) 0
        orient3 (direction_to p0 p1) ((0.5 : ℝ) • (p0 + p1)))

/-- Model of the curve shape `colliders()` (`curve.rs` lines 81-93): an
empty list when no curve is configured, otherwise one capsule entry per
generated transform. -/
noncomputable def curve_colliders (curve : Option CurveData) (radius : ℝ) :
    Option (List ((ℝ × ℝ) × Trs3)) :=
  match curve with
  | none => some []
  | some c => (curve_internal_new c radius).map fun gen => gen.2.map fun trs => (gen.1, trs)

/-- Model of the curve shape `up()` (`curve.rs` lines 72-78): direction
from the closest curve point to the position, zero when no curve is
configured. -/
noncomputable def curve_up (curve : Option CurveData) (p : Vec3) : Vec3 :=
  match curve with
  | none => 0
  | some c => direction_to (c.closest p) p

/-!
Claim theorems.
-/

/-- C4, counterexample: the claim predicts 13 primitives for a filled 3D
cuboid, but `inner3d::Internal` generates three face boxes (one per axis)
plus twelve edge capsules, so the filled 3D collider list has 15 entries. -/
theorem claimC4_cex :
    (cuboid_colliders3 ⟨1, 1, 1⟩ 0 false).map List.length ≠ some 13 := by
  rw [show (cuboid_colliders3 ⟨1, 1, 1⟩ 0 false).map List.length = some 15 from rfl]
  simp

/-- C4, amended: for every cuboid configuration the 3D `colliders()` call
returns normally with 12 edge capsules plus, when filled, THREE face boxes
(15 total filled, 12 hollow); the 2D `colliders()` call never returns
normally, because its edge loop runs `for i in 0..4` over transform
builders holding only two positions and panics on the out-of-bounds
index. -/
theorem claimC4 (size : Vec3) (edge_radius : ℝ) (hollow : Bool)
    (size2 : Vec2) (edge_radius2 : ℝ) (hollow2 : Bool) :
    (cuboid_colliders3 size edge_radius hollow).map List.length
      = some (if hollow then 12 else 15) ∧
    cuboid_colliders2 size2 edge_radius2 hollow2 = none := by
  constructor
  · cases hollow <;> rfl
  · rfl

/-- C5: the ring representation chosen on the next `colliders()` call is
Torus for `inner = 0, height = 0`; Flat for `0 < inner < outer,
height = 0`; Tube for `height > 0` with `inner = 0` or `inner >= outer`;
Bolt for `height > 0` with `0 < inner < outer`. -/
theorem claimC5 (s : RingState) (hcache : s.internal = none) :
    (s.inner_radius = 0 → s.height = 0 → (ring_colliders_repr s).1 = .torus) ∧
    (0 < s.inner_radius → s.inner_radius < s.outer_radius → s.height = 0 →
      (ring_colliders_repr s).1 = .flat) ∧
    (0 < s.height → (s.inner_radius = 0 ∨ s.inner_radius ≥ s.outer_radius) →
      (ring_colliders_repr s).1 = .tube) ∧
    (0 < s.height → 0 < s.inner_radius → s.inner_radius < s.outer_radius →
      (ring_colliders_repr s).1 = .bolt) := by
  unfold ring_colliders_repr
  rw [hcache]
  simp only
  unfold ringChooseRepr
  refine ⟨?_, ?_, ?_, ?_⟩
  · intro h1 h2
    rw [if_neg (by rw [h2]; exact lt_irrefl 0), if_pos (Or.inr (le_of_eq h1))]
  · intro h1 h2 h3
    rw [if_neg (by rw [h3]; exact lt_irrefl 0),
      if_neg (by push_neg; exact ⟨h2, h1⟩)]
  · intro h1 h2
    rw [if_pos h1, if_pos (by rcases h2 with h | h; exact Or.inr (le_of_eq h); exact Or.inl h)]
  · intro h1 h2 h3
    rw [if_pos h1, if_neg (by push_neg; exact ⟨h3, h2⟩)]

/-- C5 witness: concrete parameter values reaching each of the four
representations. -/
theorem claimC5_witness :
    (ring_colliders_repr { ringInit with outer_radius := 2 }).1 = .torus ∧
    (ring_colliders_repr
      { ringInit with outer_radius := 2, inner_radius := 1 }).1 = .flat ∧
    (ring_colliders_repr
      { ringInit with outer_radius := 2, height := 1 }).1 = .tube ∧
    (ring_colliders_repr
      { ringInit with outer_radius := 2, inner_radius := 1, height := 1 }).1 = .bolt := by
  refine ⟨?_, ?_, ?_, ?_⟩
  · exact (claimC5 _ rfl).1 rfl rfl
  · exact (claimC5 _ rfl).2.1 (by norm_num) (by norm_num) rfl
  · exact (claimC5 _ rfl).2.2.1 (by norm_num) (Or.inl rfl)
  · exact (claimC5 _ rfl).2.2.2 (by norm_num) (by norm_num) (by norm_num)

/-- C7: the curve generator is claimed to yield one capsule per consecutive
sample pair (n-1 capsules, 0 when n is 0 or 1). The code instead loops to
`points.len() - 2`, producing n-2 capsules for a curve with n >= 2 baked
samples (here: 1 capsule for 3 samples, not 2), and for n < 2 the usize
subtraction underflows and the point indexing panics (modelled `none`)
instead of yielding 0 capsules. With no curve configured, `colliders()`
does yield an empty list and `up` returns zero as claimed. -/
theorem claimC7 :
    ((curve_colliders
        (some ⟨[⟨0, 0, 0⟩, ⟨1, 0, 0⟩, ⟨2, 0, 0⟩], 1, fun q => q⟩) 1).map List.length
      = some 1 ∧ (1 : ℕ) ≠ 3 - 1) ∧
    curve_colliders (some ⟨[], 1, fun q => q⟩) 1 = none ∧
    curve_colliders none 1 = some [] ∧
    ∀ p, curve_up none p = 0 := by
  refine ⟨⟨rfl, by simp⟩, rfl, rfl, fun p => rfl⟩

/-- Ring radius invariant: inner radius never exceeds outer radius. -/
def ringInv (s : RingState) : Prop := s.inner_radius ≤ s.outer_radius

/-- Every ring setter call preserves the radius invariant. -/
theorem ringInv_preserved (s : RingState) (op : RingOp) (h : ringInv s) :
    ringInv (applyRingOp s op) := by
  cases op with
  | outer radius => exact min_le_right _ _
  | inner radius => exact le_max_right _ _
  | height h2 => exact h
  | edge radius => exact h
  | vertex count => exact h

/-- Cuboid size invariant: every box-size component is at least the fixed
positive minimum `MIN_SIZE`. -/
def cuboidInv (s : CuboidState) : Prop :=
  minPositive ≤ s.box_size.x ∧ minPositive ≤ s.box_size.y ∧ minPositive ≤ s.box_size.z

/-- Every cuboid setter call preserves the size invariant. -/
theorem cuboidInv_preserved (s : CuboidState) (op : CuboidOp) (h : cuboidInv s) :
    cuboidInv (applyCuboidOp s op) := by
  cases op with
  | boxSize size => exact ⟨le_max_right _ _, le_max_right _ _, le_max_right _ _⟩
  | edge radius => exact h
  | hollow h2 => exact h

theorem minPositive_le_one : minPositive ≤ 1 := by
  unfold minPositive
  rw [show ((1 : ℝ)) = (2 : ℝ) ^ (0 : ℤ) by norm_num]
  exact zpow_le_zpow_right₀ (by norm_num) (by norm_num)

/-- The ring invariant survives any setter sequence from any state
satisfying it. -/
theorem ringInv_foldl (ops : List RingOp) :
    ∀ s, ringInv s → ringInv (ops.foldl applyRingOp s) := by
  induction ops with
  | nil => exact fun s h => h
  | cons op rest ih => exact fun s h => ih _ (ringInv_preserved s op h)

/-- The cuboid invariant survives any setter sequence from any state
satisfying it. -/
theorem cuboidInv_foldl (ops : List CuboidOp) :
    ∀ s, cuboidInv s → cuboidInv (ops.foldl applyCuboidOp s) := by
  induction ops with
  | nil => exact fun s h => h
  | cons op rest ih => exact fun s h => ih _ (cuboidInv_preserved s op h)

/-- C8: after any sequence of setter calls from the default states, the
ring keeps `inner_radius <= outer_radius` (each radius setter clamps the
other), and every component of the cuboid box size stays at least the
fixed positive minimum `MIN_SIZE`. -/
theorem claimC8 (ringOps : List RingOp) (cuboidOps : List CuboidOp) :
    ringInv (applyRingOps ringInit ringOps) ∧
    cuboidInv (applyCuboidOps cuboidInit cuboidOps) := by
  constructor
  · exact ringInv_foldl ringOps ringInit (by unfold ringInv ringInit; norm_num)
  · exact cuboidInv_foldl cuboidOps cuboidInit
      ⟨minPositive_le_one, minPositive_le_one, minPositive_le_one⟩

/-- The resolver scan skips volumes that are not gravity fields; over a
list with no gravity field it leaves the accumulator unchanged. -/
theorem foldl_resolveStep_all_none (p : Vec3) (l : List (Option FieldRef)) :
    ∀ acc, (∀ r ∈ l, r = none) → l.foldl (resolveStep p) acc = acc := by
  induction l with
  | nil => exact fun acc _ => rfl
  | cons head rest ih =>
      intro acc h
      have hh : head = none := h head (by simp)
      rw [List.foldl_cons, hh]
      exact ih acc fun r hr => h r (List.mem_cons_of_mem _ hr)

/-- C10: the query resolver returns no field exactly when the spatial query
reports zero overlapping volumes; with at least one volume but none of them
a gravity field, it returns a present result with a zero up vector and an
empty contributor list. -/
theorem claimC10 (results : List (Option FieldRef)) (p : Vec3) :
    (gravity_direction results p = none ↔ results = []) ∧
    (results ≠ [] → (∀ r ∈ results, r = none) →
      gravity_direction results p = some (0, [])) := by
  constructor
  · unfold gravity_direction
    cases results with
    | nil => simp
    | cons head rest => simp
  · intro hne hall
    unfold gravity_direction
    rw [if_neg (by simpa using hne)]
    rw [foldl_resolveStep_all_none p results _ hall]
    simp

/-- C10 witness: one overlapping volume that is not a gravity field gives a
present result with zero up vector and no contributors. -/
theorem claimC10_witness : gravity_direction [none] 0 = some (0, []) := by
  exact (claimC10 [none] 0).2 (by simp) (by simp)

theorem vnorm_100 : Vec3.vnorm ⟨1, 0, 0⟩ = 1 := by
  unfold Vec3.vnorm Vec3.dot
  norm_num

/-- C6, counterexample: with `height = radius = 1`, axis Y and the point
`(1,0,0)`, the conic field sets the axis coordinate to
`radius * length(flattened) = 1`, giving the direction `(1,1,0)/sqrt 2`,
while the axial field gives `(1,0,0)`; the two local up directions
differ. -/
theorem claimC6_cex :
    local_up Rot3.idRot (.conic 1 1 .Y false) ⟨1, 0, 0⟩
      ≠ local_up Rot3.idRot (.axial .Y false) ⟨1, 0, 0⟩ := by
  have hs2 : Real.sqrt 2 ≠ 0 := by positivity
  have hL : local_up Rot3.idRot (.conic 1 1 .Y false) ⟨1, 0, 0⟩
      = ⟨(Real.sqrt 2)⁻¹, (Real.sqrt 2)⁻¹, 0⟩ := by
    show applyInverted false (conic_vec 1 1 .Y ⟨1, 0, 0⟩) = _
    unfold applyInverted conic_vec flatten_y
    rw [if_neg (by simp)]
    simp only [vnorm_100]
    rw [show (⟨1 * 1, 1 * 1, 0 * 1⟩ : Vec3) = ⟨1, 1, 0⟩ by norm_num]
    unfold Vec3.normalized_or_zero
    have h110 : Vec3.vnorm ⟨1, 1, 0⟩ = Real.sqrt 2 := by
      unfold Vec3.vnorm Vec3.dot
      norm_num
    rw [h110, if_neg hs2]
    ext <;> simp
  have hR : local_up Rot3.idRot (.axial .Y false) ⟨1, 0, 0⟩ = ⟨1, 0, 0⟩ := by
    show applyInverted false (Vec3.normalized_or_zero (flatten_y ⟨1, 0, 0⟩)) = _
    unfold applyInverted flatten_y Vec3.normalized_or_zero
    rw [if_neg (by simp)]
    rw [vnorm_100, if_neg one_ne_zero]
    ext <;> simp
  rw [hL, hR]
  intro h
  have hy := congrArg Vec3.y h
  simp only at hy
  exact inv_ne_zero hs2 hy

/-- C6, amended: a conic field degenerates to the axial field not at
`height = radius` but at `radius = 0` with positive height: there the axis
coordinate stays zero and the uniform `height` scaling of the two
perpendicular coordinates cancels under normalization, for every point,
axis selection and inverted flag. -/
theorem claimC6 (R : Rot3) (h : ℝ) (axis : Axis3D) (inverted : Bool) (p : Vec3)
    (hh : 0 < h) :
    local_up R (.conic h 0 axis inverted) p = local_up R (.axial axis inverted) p := by
  cases axis with
  | X =>
      show applyInverted inverted
          (Vec3.normalized_or_zero
            ⟨0 * Vec3.vnorm (flatten_x p), (flatten_x p).y * h, (flatten_x p).z * h⟩)
        = applyInverted inverted (Vec3.normalized_or_zero (flatten_x p))
      rw [show (⟨0 * Vec3.vnorm (flatten_x p), (flatten_x p).y * h, (flatten_x p).z * h⟩ : Vec3)
            = h • flatten_x p by ext <;> simp [flatten_x] <;> ring]
      rw [Vec3.normalized_or_zero_smul hh]
  | Y =>
      show applyInverted inverted
          (Vec3.normalized_or_zero
            ⟨(flatten_y p).x * h, 0 * Vec3.vnorm (flatten_y p), (flatten_y p).z * h⟩)
        = applyInverted inverted (Vec3.normalized_or_zero (flatten_y p))
      rw [show (⟨(flatten_y p).x * h, 0 * Vec3.vnorm (flatten_y p), (flatten_y p).z * h⟩ : Vec3)
            = h • flatten_y p by ext <;> simp [flatten_y] <;> ring]
      rw [Vec3.normalized_or_zero_smul hh]
  | Z =>
      show applyInverted inverted
          (Vec3.normalized_or_zero
            ⟨(flatten_z p).x * h, (flatten_z p).y * h, 0 * Vec3.vnorm (flatten_z p)⟩)
        = applyInverted inverted (Vec3.normalized_or_zero (flatten_z p))
      rw [show (⟨(flatten_z p).x * h, (flatten_z p).y * h, 0 * Vec3.vnorm (flatten_z p)⟩ : Vec3)
            = h • flatten_z p by ext <;> simp [flatten_z] <;> ring]
      rw [Vec3.normalized_or_zero_smul hh]

/-- C6 witness: at height 1, radius 0, axis Y and point `(3,0,4)` the conic
and axial local up directions coincide. -/
theorem claimC6_witness :
    local_up Rot3.idRot (.conic 1 0 .Y false) ⟨3, 0, 4⟩
      = local_up Rot3.idRot (.axial .Y false) ⟨3, 0, 4⟩ :=
  claimC6 Rot3.idRot 1 .Y false ⟨3, 0, 4⟩ (by norm_num)

/-- A single bridge point whose referenced field behaves like a center
field with identity world pose: its global up is the normalized position.
The delimiting plane is the horizontal plane through the origin. -/
noncomputable def c3point : BridgePoint3 :=
  { up := fun q => Vec3.normalized_or_zero q
    rot := Rot3.idRot
    origin := 0
    local_plane := ⟨⟨0, 1, 0⟩, 0⟩ }

theorem c3point_plane : c3point.get_global_plane = ⟨⟨0, 1, 0⟩, 0⟩ := by
  unfold c3point BridgePoint3.get_global_plane Rot3.idRot
  simp [Vec3.dot]

theorem sqrt_nine : Real.sqrt 9 = 3 := by
  rw [show (9 : ℝ) = 3 ^ 2 by norm_num, Real.sqrt_sq (by norm_num : (0 : ℝ) ≤ 3)]

theorem sqrt_twentyfive : Real.sqrt 25 = 5 := by
  rw [show (25 : ℝ) = 5 ^ 2 by norm_num, Real.sqrt_sq (by norm_num : (0 : ℝ) ≤ 5)]

/-- C3, counterexample: a bridge with one point whose referenced field is a
center field (identity pose) and whose plane is the horizontal plane. At
`(3,4,0)` the point is above the plane; the bridge returns the referenced
global up at the PROJECTION `(3,0,0)`, namely `(1,0,0)`, not the global up
at the queried point itself, `(3/5,4/5,0)`. -/
theorem claimC3_cex :
    bridge_global_up [c3point] ⟨3, 4, 0⟩ ≠ c3point.up ⟨3, 4, 0⟩ := by
  have hover : c3point.get_global_plane.is_point_over ⟨3, 4, 0⟩ := by
    rw [c3point_plane]
    unfold Plane3.is_point_over Vec3.dot
    norm_num
  have hc : classifyPoints [c3point] ⟨3, 4, 0⟩ = ([mkInside c3point ⟨3, 4, 0⟩], []) := by
    show (if c3point.get_global_plane.is_point_over ⟨3, 4, 0⟩
          then (mkInside c3point ⟨3, 4, 0⟩ :: ([] : List InsideData), ([] : List OutsideData))
          else (([] : List InsideData), mkOutside c3point ⟨3, 4, 0⟩ :: ([] : List OutsideData)))
        = ([mkInside c3point ⟨3, 4, 0⟩], [])
    rw [if_pos hover]
  have hL : bridge_global_up [c3point] ⟨3, 4, 0⟩ = ⟨1, 0, 0⟩ := by
    unfold bridge_global_up
    rw [show ([c3point] : List BridgePoint3).isEmpty = false from rfl]
    simp only [Bool.false_eq_true, if_false, hc]
    have hproj : c3point.get_global_plane.project ⟨3, 4, 0⟩ = ⟨3, 0, 0⟩ := by
      rw [c3point_plane]
      unfold Plane3.project Plane3.distance_to Vec3.dot
      ext <;> simp
    show (mkInside c3point ⟨3, 4, 0⟩).up = ⟨1, 0, 0⟩
    unfold mkInside
    simp only
    rw [hproj]
    show Vec3.normalized_or_zero ⟨3, 0, 0⟩ = ⟨1, 0, 0⟩
    unfold Vec3.normalized_or_zero Vec3.vnorm Vec3.dot
    rw [show (3 : ℝ) * 3 + 0 * 0 + 0 * 0 = 9 by norm_num, sqrt_nine]
    rw [if_neg (by norm_num)]
    ext <;> norm_num
  have hR : c3point.up ⟨3, 4, 0⟩ = ⟨3 / 5, 4 / 5, 0⟩ := by
    show Vec3.normalized_or_zero ⟨3, 4, 0⟩ = _
    unfold Vec3.normalized_or_zero Vec3.vnorm Vec3.dot
    rw [show (3 : ℝ) * 3 + 4 * 4 + 0 * 0 = 25 by norm_num, sqrt_twentyfive]
    rw [if_neg (by norm_num)]
    ext <;> norm_num
  rw [hL, hR]
  intro h
  have hy := congrArg Vec3.y h
  norm_num at hy

/-- C3, amended: for a bridge with exactly one configured point, evaluated
at a point above its delimiting plane, `global_up` returns the referenced
field global up evaluated at the PROJECTION of the queried point onto the
plane (not at the queried point itself). -/
theorem claimC3 (bp : BridgePoint3) (p : Vec3)
    (h : bp.get_global_plane.is_point_over p) :
    bridge_global_up [bp] p = bp.up (bp.get_global_plane.project p) := by
  have hc : classifyPoints [bp] p = ([mkInside bp p], []) := by
    show (if bp.get_global_plane.is_point_over p
          then (mkInside bp p :: ([] : List InsideData), ([] : List OutsideData))
          else (([] : List InsideData), mkOutside bp p :: ([] : List OutsideData)))
        = ([mkInside bp p], [])
    rw [if_pos h]
  unfold bridge_global_up
  rw [show ([bp] : List BridgePoint3).isEmpty = false from rfl]
  simp only [Bool.false_eq_true, if_false, hc]
  show (mkInside bp p).up = _
  unfold mkInside
  simp only

/-- C3 witness: the single-point bridge of the counterexample, at `(3,4,0)`
(above the plane), returns the referenced field global up at the projected
point `(3,0,0)`. -/
theorem claimC3_witness :
    bridge_global_up [c3point] ⟨3, 4, 0⟩
      = c3point.up (c3point.get_global_plane.project ⟨3, 4, 0⟩) := by
  apply claimC3
  rw [c3point_plane]
  unfold Plane3.is_point_over Vec3.dot
  norm_num

@[simp] theorem Vec3.zero_add (v : Vec3) : (0 : Vec3) + v = v := by
  ext <;> simp

/-- The resolver scan over raw query results equals the scan over the
results that are gravity fields: non-field colliders are skipped. -/
theorem foldl_resolveStep_filterMap (p : Vec3) (results : List (Option FieldRef)) :
    ∀ acc, results.foldl (resolveStep p) acc
      = (results.filterMap id).foldl (fun a f => resolveStep p a (some f)) acc := by
  induction results with
  | nil => intro acc; rfl
  | cons head rest ih =>
      intro acc
      cases head with
      | none =>
          rw [List.foldl_cons]
          rw [show resolveStep p acc none = acc from rfl]
          rw [ih acc]
          simp
      | some f =>
          rw [List.foldl_cons, ih (resolveStep p acc (some f))]
          simp

theorem le_foldl_max (l : List FieldRef) : ∀ b : ℤ, b ≤ l.foldl (fun m f => max m f.level) b := by
  induction l with
  | nil => exact fun b => le_refl b
  | cons head rest ih =>
      intro b
      exact le_trans (le_max_left b head.level) (ih (max b head.level))

theorem mem_le_foldl_max (l : List FieldRef) (f : FieldRef) (hf : f ∈ l) :
    ∀ b : ℤ, f.level ≤ l.foldl (fun m g => max m g.level) b := by
  induction l with
  | nil => cases hf
  | cons head rest ih =>
      intro b
      rcases List.mem_cons.mp hf with h | h
      · subst h
        exact le_trans (le_max_right b f.level) (le_foldl_max rest _)
      · exact ih h (max b head.level)

/-- Every overlapping gravity field level is at most the winning level. -/
theorem le_specWinningLevel (valid : List FieldRef) (f : FieldRef) (hf : f ∈ valid) :
    f.level ≤ specWinningLevel valid :=
  mem_le_foldl_max valid f hf levelMin

theorem specWinningLevel_append (vs : List FieldRef) (f : FieldRef) :
    specWinningLevel (vs ++ [f]) = max (specWinningLevel vs) f.level := by
  unfold specWinningLevel
  rw [List.foldl_append]
  rfl

theorem sumUps_append (w : List FieldRef) (f : FieldRef) (p : Vec3) :
    sumUps (w ++ [f]) p = sumUps w p + f.up p := by
  unfold sumUps
  rw [List.foldl_append]
  rfl

/-- Characterization of the resolver scan: starting from the sentinel
state, folding the scan step over the gravity fields found yields the
winning level, the sum of the winning-level ups and the winning-level
contributor list in query order. -/
theorem resolver_scan_char (p : Vec3) (valid : List FieldRef) :
    valid.foldl (fun a f => resolveStep p a (some f)) (levelMin, 0, [])
      = (specWinningLevel valid, sumUps (specWinners valid) p, specWinners valid) := by
  induction valid using List.reverseRecOn with
  | nil =>
      unfold specWinningLevel specWinners sumUps
      simp
  | append_singleton vs f ih =>
      rw [List.foldl_append, ih, List.foldl_cons, List.foldl_nil]
      show resolveStep p (specWinningLevel vs, sumUps (specWinners vs) p, specWinners vs) (some f)
        = _
      unfold resolveStep
      simp only
      by_cases hgt : specWinningLevel vs < f.level
      · rw [if_pos hgt]
        have hM : specWinningLevel (vs ++ [f]) = f.level := by
          rw [specWinningLevel_append]
          exact max_eq_right hgt.le
        have hW : specWinners (vs ++ [f]) = [f] := by
          unfold specWinners
          rw [hM, List.filter_append]
          rw [List.filter_eq_nil_iff.mpr
            (fun g hg => by
              simp only [decide_eq_true_eq]
              exact ne_of_lt (lt_of_le_of_lt (le_specWinningLevel vs g hg) hgt))]
          simp
        rw [hM, hW]
        unfold sumUps
        simp
      · by_cases heq : f.level = specWinningLevel vs
        · rw [if_neg hgt, if_pos heq]
          have hM : specWinningLevel (vs ++ [f]) = specWinningLevel vs := by
            rw [specWinningLevel_append, heq, max_self]
          have hW : specWinners (vs ++ [f]) = specWinners vs ++ [f] := by
            unfold specWinners
            rw [hM, List.filter_append]
            simp [heq]
          rw [hM, hW, sumUps_append]
        · rw [if_neg hgt, if_neg heq]
          have hlt : f.level < specWinningLevel vs :=
            lt_of_le_of_ne (not_lt.mp hgt) heq
          have hM : specWinningLevel (vs ++ [f]) = specWinningLevel vs := by
            rw [specWinningLevel_append]
            exact max_eq_left hlt.le
          have hW : specWinners (vs ++ [f]) = specWinners vs := by
            unfold specWinners
            rw [hM, List.filter_append]
            simp [ne_of_lt hlt]
          rw [hM, hW]

/-- C2: the resolver aggregates by a single scan equivalent to: keep the
fields at the highest priority level seen (strictly higher resets the
aggregate and contributor list, equal accumulates, lower is ignored) and
return the normalized sum of their up vectors; with levels {1,3,3} only the
two level-3 fields contribute (summed then renormalized); with zero
overlapping volumes the result is no field. -/
theorem claimC2 :
    (∀ (results : List (Option FieldRef)) (p : Vec3),
      gravity_direction results p = spec_resolver results p) ∧
    (∀ (f1 f2 f3 : FieldRef) (p : Vec3),
      f1.level = 1 → f2.level = 3 → f3.level = 3 →
      gravity_direction [some f1, some f2, some f3] p
        = some (Vec3.normalized_or_zero (f2.up p + f3.up p), [f2, f3])) ∧
    (∀ p, gravity_direction [] p = none) := by
  have hgen : ∀ (results : List (Option FieldRef)) (p : Vec3),
      gravity_direction results p = spec_resolver results p := by
    intro results p
    unfold gravity_direction spec_resolver
    by_cases hemp : results.isEmpty
    · rw [if_pos hemp, if_pos hemp]
    · rw [if_neg hemp, if_neg hemp]
      rw [foldl_resolveStep_filterMap p results, resolver_scan_char]
  refine ⟨hgen, ?_, fun p => rfl⟩
  intro f1 f2 f3 p h1 h2 h3
  rw [hgen]
  unfold spec_resolver
  rw [if_neg (by simp)]
  have hvalid : ([some f1, some f2, some f3].filterMap id) = [f1, f2, f3] := by simp
  rw [hvalid]
  have hM : specWinningLevel [f1, f2, f3] = 3 := by
    unfold specWinningLevel levelMin
    rw [show ([f1, f2, f3] : List FieldRef).foldl (fun m f => max m f.level) (-(2 ^ 31))
          = max (max (max (-(2 ^ 31)) f1.level) f2.level) f3.level from rfl]
    rw [h1, h2, h3]
    norm_num
  have hW : specWinners [f1, f2, f3] = [f2, f3] := by
    unfold specWinners
    rw [hM]
    simp [List.filter_cons, h1, h2, h3]
  show some ((sumUps (specWinners [f1, f2, f3]) p).normalized_or_zero,
        specWinners [f1, f2, f3])
      = some ((f2.up p + f3.up p).normalized_or_zero, [f2, f3])
  rw [hW]
  unfold sumUps
  simp

theorem classifyPoints_nil (p : Vec3) : classifyPoints [] p = ([], []) := rfl

/-- Unfolding equation for the bridge classification loop. -/
theorem classifyPoints_cons (bp : BridgePoint3) (rest : List BridgePoint3) (p : Vec3) :
    classifyPoints (bp :: rest) p =
      if bp.get_global_plane.is_point_over p
      then (mkInside bp p :: (classifyPoints rest p).1, (classifyPoints rest p).2)
      else ((classifyPoints rest p).1, mkOutside bp p :: (classifyPoints rest p).2) := by
  rcases hab : classifyPoints rest p with ⟨a, b⟩
  unfold classifyPoints
  rw [hab]

/-- The constant-direction bridge point with a plane facing positive X
(its referenced field is a flat field pointing along Y, identity pose). -/
noncomputable def c1point0 : BridgePoint3 :=
  { up := fun _ => ⟨0, 1, 0⟩
    rot := Rot3.idRot
    origin := 0
    local_plane := ⟨⟨1, 0, 0⟩, 0⟩ }

/-- The constant-direction bridge point with a plane facing positive Z
(its referenced field is a flat field pointing along X, identity pose). -/
noncomputable def c1point1 : BridgePoint3 :=
  { up := fun _ => ⟨1, 0, 0⟩
    rot := Rot3.idRot
    origin := 0
    local_plane := ⟨⟨0, 0, 1⟩, 0⟩ }

theorem c1point0_plane : c1point0.get_global_plane = ⟨⟨1, 0, 0⟩, 0⟩ := by
  unfold c1point0 BridgePoint3.get_global_plane Rot3.idRot
  simp [Vec3.dot]

theorem c1point1_plane : c1point1.get_global_plane = ⟨⟨0, 0, 1⟩, 0⟩ := by
  unfold c1point1 BridgePoint3.get_global_plane Rot3.idRot
  simp [Vec3.dot]

theorem c1inside0 : mkInside c1point0 ⟨1, 0, 1⟩ =
    { up := ⟨0, 1, 0⟩, translation := ⟨1, 0, 0⟩, distance := 1, tan_angle := 0, weight := 0 } := by
  unfold mkInside Plane3.project Plane3.distance_to
  rw [c1point0_plane]
  simp [c1point0, Vec3.dot, Vec3.mk.injEq]
  ext <;> norm_num

theorem c1inside1 : mkInside c1point1 ⟨1, 0, 1⟩ =
    { up := ⟨1, 0, 0⟩, translation := ⟨0, 0, 1⟩, distance := 1, tan_angle := 0, weight := 0 } := by
  unfold mkInside Plane3.project Plane3.distance_to
  rw [c1point1_plane]
  simp [c1point1, Vec3.dot, Vec3.mk.injEq]
  ext <;> norm_num

theorem c1classify : classifyPoints [c1point0, c1point1] ⟨1, 0, 1⟩ =
    ([{ up := ⟨0, 1, 0⟩, translation := ⟨1, 0, 0⟩, distance := 1, tan_angle := 0, weight := 0 },
      { up := ⟨1, 0, 0⟩, translation := ⟨0, 0, 1⟩, distance := 1, tan_angle := 0, weight := 0 }],
     []) := by
  have hover0 : c1point0.get_global_plane.is_point_over ⟨1, 0, 1⟩ := by
    rw [c1point0_plane]
    unfold Plane3.is_point_over Vec3.dot
    norm_num
  have hover1 : c1point1.get_global_plane.is_point_over ⟨1, 0, 1⟩ := by
    rw [c1point1_plane]
    unfold Plane3.is_point_over Vec3.dot
    norm_num
  rw [classifyPoints_cons, if_pos hover0, classifyPoints_cons, if_pos hover1,
    classifyPoints_nil, c1inside0, c1inside1]

theorem tanHalf_orthogonal {a b : Vec3} (hab : Vec3.dot a b = 0)
    (ha : Vec3.vnorm a = 1) (hb : Vec3.vnorm b = 1) : tan_half_angle a b = 1 := by
  unfold tan_half_angle angle_to
  rw [hab, ha, hb]
  norm_num
  rw [show Real.pi / 2 * (1 / 2) = Real.pi / 4 by ring]
  exact Real.tan_pi_div_four

theorem vnorm_001 : Vec3.vnorm ⟨0, 0, 1⟩ = 1 := by
  unfold Vec3.vnorm Vec3.dot
  norm_num

theorem vnorm_010 : Vec3.vnorm ⟨0, 1, 0⟩ = 1 := by
  unfold Vec3.vnorm Vec3.dot
  norm_num

/-- C1: evaluation of the bridge blend at a symmetric two-point
configuration (both points above, unit distances, orthogonal translations,
so both half-angle tangents are 1). The claimed cyclic weight formula gives
`weight[0] = (tan[1] + tan[0]) / distance[0] = 2` (third conjunct), but the
code computes the weight list `[0, 2]` (second conjunct): the final
statement of the weight loop overwrites `above[last]` (using its own
tangent twice) instead of writing `above[0]`, which keeps weight 0 from
`InsideData::new`. The blend therefore returns the second point's up
direction outright (first conjunct) instead of the symmetric midpoint
blend: its angle to the first source direction `(0,1,0)` differs from its
angle to the second source direction `(1,0,0)` (fourth conjunct). -/
theorem claimC1 :
    bridge_global_up [c1point0, c1point1] ⟨1, 0, 1⟩ = ⟨1, 0, 0⟩ ∧
    (withWeights (withTans
        (classifyPoints [c1point0, c1point1] ⟨1, 0, 1⟩).1)).map InsideData.weight
      = [0, 2] ∧
    (tan_half_angle ⟨0, 0, 1⟩ ⟨1, 0, 0⟩ + tan_half_angle ⟨1, 0, 0⟩ ⟨0, 0, 1⟩) / 1 = 2 ∧
    angle_to ⟨1, 0, 0⟩ ⟨0, 1, 0⟩ ≠ angle_to ⟨1, 0, 0⟩ ⟨1, 0, 0⟩ := by
  have htan01 : tan_half_angle ⟨1, 0, 0⟩ ⟨0, 0, 1⟩ = 1 :=
    tanHalf_orthogonal (by unfold Vec3.dot; norm_num) vnorm_100 vnorm_001
  have htan10 : tan_half_angle ⟨0, 0, 1⟩ ⟨1, 0, 0⟩ = 1 :=
    tanHalf_orthogonal (by unfold Vec3.dot; norm_num) vnorm_001 vnorm_100
  have hweights : withWeights (withTans
      (classifyPoints [c1point0, c1point1] ⟨1, 0, 1⟩).1) =
      [{ up := ⟨0, 1, 0⟩, translation := ⟨1, 0, 0⟩, distance := 1,
         tan_angle := tan_half_angle ⟨1, 0, 0⟩ ⟨0, 0, 1⟩, weight := 0 },
       { up := ⟨1, 0, 0⟩, translation := ⟨0, 0, 1⟩, distance := 1,
         tan_angle := tan_half_angle ⟨0, 0, 1⟩ ⟨1, 0, 0⟩,
         weight := (tan_half_angle ⟨0, 0, 1⟩ ⟨1, 0, 0⟩
           + tan_half_angle ⟨0, 0, 1⟩ ⟨1, 0, 0⟩) / 1 }] := by
    rw [c1classify]
    rfl
  refine ⟨?_, ?_, ?_, ?_⟩
  · unfold bridge_global_up
    rw [show ([c1point0, c1point1] : List BridgePoint3).isEmpty = false from rfl]
    simp only [Bool.false_eq_true, if_false, c1classify]
    norm_num
    rw [show withTans
        [{ up := ⟨0, 1, 0⟩, translation := ⟨1, 0, 0⟩, distance := 1,
           tan_angle := 0, weight := 0 },
         { up := ⟨1, 0, 0⟩, translation := ⟨0, 0, 1⟩, distance := 1,
           tan_angle := 0, weight := 0 }]
        = [{ up := ⟨0, 1, 0⟩, translation := ⟨1, 0, 0⟩, distance := 1,
             tan_angle := tan_half_angle ⟨1, 0, 0⟩ ⟨0, 0, 1⟩, weight := 0 },
           { up := ⟨1, 0, 0⟩, translation := ⟨0, 0, 1⟩, distance := 1,
             tan_angle := tan_half_angle ⟨0, 0, 1⟩ ⟨1, 0, 0⟩, weight := 0 }] from rfl]
    rw [htan01, htan10]
    rw [show withWeights
        [{ up := ⟨0, 1, 0⟩, translation := ⟨1, 0, 0⟩, distance := 1,
           tan_angle := 1, weight := 0 },
         { up := ⟨1, 0, 0⟩, translation := ⟨0, 0, 1⟩, distance := 1,
           tan_angle := 1, weight := 0 }]
        = [{ up := ⟨0, 1, 0⟩, translation := ⟨1, 0, 0⟩, distance := 1,
             tan_angle := 1, weight := 0 },
           { up := ⟨1, 0, 0⟩, translation := ⟨0, 0, 1⟩, distance := 1,
             tan_angle := 1, weight := ((1 : ℝ) + 1) / 1 }] from rfl]
    have hsum : weightedSum
        [{ up := ⟨0, 1, 0⟩, translation := ⟨1, 0, 0⟩, distance := 1,
           tan_angle := 1, weight := 0 },
         { up := ⟨1, 0, 0⟩, translation := ⟨0, 0, 1⟩, distance := 1,
           tan_angle := 1, weight := ((1 : ℝ) + 1) / 1 }] = ⟨2, 0, 0⟩ := by
      unfold weightedSum
      simp only [List.foldl]
      ext <;> norm_num
    rw [hsum]
    unfold Vec3.normalized_or_zero Vec3.vnorm Vec3.dot
    rw [show (2 : ℝ) * 2 + 0 * 0 + 0 * 0 = 4 by norm_num]
    rw [show Real.sqrt 4 = 2 by
      rw [show (4 : ℝ) = 2 ^ 2 by norm_num, Real.sqrt_sq (by norm_num : (0 : ℝ) ≤ 2)]]
    rw [if_neg two_ne_zero]
    ext <;> norm_num
  · rw [hweights]
    simp only [List.map]
    rw [htan10]
    norm_num
  · rw [htan01, htan10]
    norm_num
  · unfold angle_to
    rw [vnorm_100, vnorm_010]
    rw [show Vec3.dot ⟨1, 0, 0⟩ ⟨0, 1, 0⟩ = 0 by unfold Vec3.dot; norm_num]
    rw [show Vec3.dot ⟨1, 0, 0⟩ ⟨1, 0, 0⟩ = 1 by unfold Vec3.dot; norm_num]
    norm_num [Real.arccos_zero, Real.arccos_one]
    exact ne_of_gt (by positivity)

end GravityField

namespace GravityField

/-- C2 witness: three concrete overlapping fields with levels 1, 3, 3; the
result keeps only the two level-3 fields and their renormalized sum. -/
theorem claimC2_witness :
    gravity_direction
        [some ⟨1, fun _ => ⟨1, 0, 0⟩⟩, some ⟨3, fun _ => ⟨0, 1, 0⟩⟩,
          some ⟨3, fun _ => ⟨0, 0, 1⟩⟩] 0
      = some (Vec3.normalized_or_zero ((⟨0, 1, 0⟩ : Vec3) + ⟨0, 0, 1⟩),
          [⟨3, fun _ => ⟨0, 1, 0⟩⟩, ⟨3, fun _ => ⟨0, 0, 1⟩⟩]) :=
  claimC2.2.1 ⟨1, fun _ => ⟨1, 0, 0⟩⟩ ⟨3, fun _ => ⟨0, 1, 0⟩⟩ ⟨3, fun _ => ⟨0, 0, 1⟩⟩ 0
    rfl rfl rfl

/-- The referenced fields a field variant blends: the bridge point list for
a bridge, nothing for every other variant. -/
def bridgeRefs : Field3 → List BridgePoint3
  | .bridge points => points
  | _ => []

theorem unitOrZero_rotF (R : Rot3) {v : Vec3} (h : Vec3.unitOrZero v) :
    Vec3.unitOrZero (R.f v) := by
  rcases h with h | h
  · left; rw [R.norm_f]; exact h
  · right; rw [h]; exact R.f_zero

theorem unitOrZero_rotG (R : Rot3) {v : Vec3} (h : Vec3.unitOrZero v) :
    Vec3.unitOrZero (R.g v) := by
  rcases h with h | h
  · left; rw [R.norm_g]; exact h
  · right; rw [h]; exact R.g_zero

theorem conic_vec_unitOrZero (h r : ℝ) (axis : Axis3D) (p : Vec3) :
    Vec3.unitOrZero (conic_vec h r axis p) := by
  cases axis <;> exact Vec3.normalized_or_zero_unitOrZero _

/-- Every 3D axis unit constant has norm 1. -/
theorem axisVec3_unit (axis : Axis3D) : Vec3.vnorm axis.to_vector = 1 := by
  cases axis with
  | X => exact vnorm_100
  | Y => exact vnorm_010
  | Z =>
      show Vec3.vnorm ⟨0, 0, -1⟩ = 1
      unfold Vec3.vnorm Vec3.dot
      norm_num

/-- Every 2D axis unit constant has norm 1. -/
theorem axisVec2_unit (axis : Axis2D) : Vec2.vnorm axis.to_vector = 1 := by
  cases axis with
  | X =>
      show Vec2.vnorm ⟨1, 0⟩ = 1
      unfold Vec2.vnorm
      norm_num
  | Y =>
      show Vec2.vnorm ⟨0, -1⟩ = 1
      unfold Vec2.vnorm
      norm_num

theorem applyInverted2_unitOrZero {inverted : Bool} {up : Vec2}
    (h : Vec2.unitOrZero up) : Vec2.unitOrZero (applyInverted2 inverted up) := by
  unfold applyInverted2
  cases inverted
  · simpa using h
  · simpa using Vec2.unitOrZero2_neg h

theorem rotated2_zero (angle : ℝ) : rotated2 angle 0 = 0 := by
  unfold rotated2
  ext <;> simp

theorem unitOrZero2_rotated (angle : ℝ) {v : Vec2} (h : Vec2.unitOrZero v) :
    Vec2.unitOrZero (rotated2 angle v) := by
  rcases h with h | h
  · left; rw [rotated2_vnorm]; exact h
  · right; rw [h]; exact rotated2_zero angle

/-- The classification loop splits the point list: the two output lists
together have one entry per configured bridge point. -/
theorem classifyPoints_length (pts : List BridgePoint3) (p : Vec3) :
    (classifyPoints pts p).1.length + (classifyPoints pts p).2.length = pts.length := by
  induction pts with
  | nil => rfl
  | cons bp rest ih =>
      rw [classifyPoints_cons]
      by_cases h : bp.get_global_plane.is_point_over p
      · rw [if_pos h]
        simp only [List.length_cons]
        omega
      · rw [if_neg h]
        simp only [List.length_cons]
        omega

/-- Every above-entry records a referenced field up value (evaluated at the
projected position), so it is unit or zero when every referenced field only
produces unit-or-zero ups. -/
theorem classify_above_up (pts : List BridgePoint3) (p : Vec3)
    (h : ∀ bp ∈ pts, ∀ q, Vec3.unitOrZero (bp.up q)) :
    ∀ d ∈ (classifyPoints pts p).1, Vec3.unitOrZero d.up := by
  induction pts with
  | nil =>
      intro d hd
      rw [classifyPoints_nil] at hd
      cases hd
  | cons bp rest ih =>
      intro d hd
      rw [classifyPoints_cons] at hd
      have hrest : ∀ bp2 ∈ rest, ∀ q, Vec3.unitOrZero (bp2.up q) :=
        fun bp2 hbp2 => h bp2 (List.mem_cons_of_mem _ hbp2)
      by_cases hover : bp.get_global_plane.is_point_over p
      · rw [if_pos hover] at hd
        rcases List.mem_cons.mp hd with h1 | h1
        · rw [h1]
          exact h bp (List.mem_cons_self bp rest) _
        · exact ih hrest d h1
      · rw [if_neg hover] at hd
        exact ih hrest d hd

/-- Every below-entry records a referenced field up value (evaluated at the
queried position itself). -/
theorem classify_below_up (pts : List BridgePoint3) (p : Vec3)
    (h : ∀ bp ∈ pts, ∀ q, Vec3.unitOrZero (bp.up q)) :
    ∀ d ∈ (classifyPoints pts p).2, Vec3.unitOrZero d.up := by
  induction pts with
  | nil =>
      intro d hd
      rw [classifyPoints_nil] at hd
      cases hd
  | cons bp rest ih =>
      intro d hd
      rw [classifyPoints_cons] at hd
      have hrest : ∀ bp2 ∈ rest, ∀ q, Vec3.unitOrZero (bp2.up q) :=
        fun bp2 hbp2 => h bp2 (List.mem_cons_of_mem _ hbp2)
      by_cases hover : bp.get_global_plane.is_point_over p
      · rw [if_pos hover] at hd
        exact ih hrest d hd
      · rw [if_neg hover] at hd
        rcases List.mem_cons.mp hd with h1 | h1
        · rw [h1]
          exact h bp (List.mem_cons_self bp rest) _
        · exact ih hrest d h1

/-- The bridge blend always produces a unit or zero vector when every
referenced field does: each branch either returns zero, a referenced up
value, or an explicitly renormalized sum. -/
theorem bridge_unitOrZero (pts : List BridgePoint3) (p : Vec3)
    (h : ∀ bp ∈ pts, ∀ q, Vec3.unitOrZero (bp.up q)) :
    Vec3.unitOrZero (bridge_global_up pts p) := by
  unfold bridge_global_up
  by_cases hemp : pts.isEmpty = true
  · rw [if_pos hemp]
    right
    rfl
  · rw [if_neg hemp]
    show Vec3.unitOrZero
      (if (classifyPoints pts p).2.isEmpty = true then
        if 1 < (classifyPoints pts p).1.length then
          Vec3.normalized_or_zero (weightedSum (withWeights (withTans (classifyPoints pts p).1)))
        else ((classifyPoints pts p).1.headD default).up
      else
        if 1 < (classifyPoints pts p).2.length then
          Vec3.normalized_or_zero (belowSum (classifyPoints pts p).2)
        else ((classifyPoints pts p).2.headD default).up)
    by_cases hbe : (classifyPoints pts p).2.isEmpty = true
    · rw [if_pos hbe]
      by_cases hlen : 1 < (classifyPoints pts p).1.length
      · rw [if_pos hlen]
        exact Vec3.normalized_or_zero_unitOrZero _
      · rw [if_neg hlen]
        have hlen2 : (classifyPoints pts p).1.length = pts.length := by
          have hsum := classifyPoints_length pts p
          rw [List.isEmpty_iff] at hbe
          rw [hbe] at hsum
          simpa using hsum
        have hne : (classifyPoints pts p).1 ≠ [] := by
          intro hcon
          rw [hcon] at hlen2
          have : pts = [] := List.eq_nil_of_length_eq_zero hlen2.symm
          rw [this] at hemp
          exact hemp rfl
        obtain ⟨d, rest, hd⟩ := List.exists_cons_of_ne_nil hne
        rw [hd]
        simp only [List.headD_cons]
        exact classify_above_up pts p h d (by rw [hd]; exact List.mem_cons_self d rest)
    · rw [if_neg hbe]
      by_cases hlen : 1 < (classifyPoints pts p).2.length
      · rw [if_pos hlen]
        exact Vec3.normalized_or_zero_unitOrZero _
      · rw [if_neg hlen]
        have hne : (classifyPoints pts p).2 ≠ [] := by
          intro hcon
          rw [hcon] at hbe
          exact hbe rfl
        obtain ⟨d, rest, hd⟩ := List.exists_cons_of_ne_nil hne
        rw [hd]
        simp only [List.headD_cons]
        exact classify_below_up pts p h d (by rw [hd]; exact List.mem_cons_self d rest)

/-- C9: for every field variant (3D: flat, center, axial, conic,
shape-backed, bridge; 2D: flat, center, shape-backed) and every point,
`global_up` is `local_up` rotated by the field world orientation (a pure
rotation), and both are unit length or exactly zero; for a bridge the
referenced fields are assumed to produce unit-or-zero ups, which is what
every variant guarantees. -/
theorem claimC9 :
    (∀ (R : Rot3) (f : Field3) (p : Vec3),
      (∀ bp ∈ bridgeRefs f, ∀ q, Vec3.unitOrZero (bp.up q)) →
      global_up R f p = R.f (local_up R f p) ∧
      Vec3.unitOrZero (local_up R f p) ∧ Vec3.unitOrZero (global_up R f p)) ∧
    (∀ (angle : ℝ) (f : Field2) (p : Vec2),
      global_up2 angle f p = rotated2 angle (local_up2 f p) ∧
      Vec2.unitOrZero (local_up2 f p) ∧ Vec2.unitOrZero (global_up2 angle f p)) := by
  constructor
  · intro R f p href
    cases f with
    | flat axis inverted =>
        have hl : Vec3.unitOrZero (local_up R (.flat axis inverted) p) :=
          applyInverted_unitOrZero (Or.inl (axisVec3_unit axis))
        exact ⟨rfl, hl, unitOrZero_rotF R hl⟩
    | center inverted =>
        have hl : Vec3.unitOrZero (local_up R (.center inverted) p) :=
          applyInverted_unitOrZero (Vec3.normalized_or_zero_unitOrZero p)
        exact ⟨rfl, hl, unitOrZero_rotF R hl⟩
    | axial axis inverted =>
        have hl : Vec3.unitOrZero (local_up R (.axial axis inverted) p) :=
          applyInverted_unitOrZero (Vec3.normalized_or_zero_unitOrZero _)
        exact ⟨rfl, hl, unitOrZero_rotF R hl⟩
    | conic height radius axis inverted =>
        have hl : Vec3.unitOrZero (local_up R (.conic height radius axis inverted) p) :=
          applyInverted_unitOrZero (conic_vec_unitOrZero height radius axis p)
        exact ⟨rfl, hl, unitOrZero_rotF R hl⟩
    | shaped inverted =>
        have hl : Vec3.unitOrZero (local_up R (.shaped inverted) p) := by
          show Vec3.unitOrZero (applyInverted inverted 0)
          unfold applyInverted
          cases inverted
          · right; rfl
          · right; simp
        exact ⟨rfl, hl, unitOrZero_rotF R hl⟩
    | bridge points =>
        have hg : Vec3.unitOrZero (bridge_global_up points p) :=
          bridge_unitOrZero points p href
        refine ⟨?_, unitOrZero_rotG R hg, hg⟩
        show bridge_global_up points p = R.f (R.g (bridge_global_up points p))
        rw [R.f_g]
  · intro angle f p
    cases f with
    | flat axis inverted =>
        have hl : Vec2.unitOrZero (local_up2 (.flat axis inverted) p) :=
          applyInverted2_unitOrZero (Or.inl (axisVec2_unit axis))
        exact ⟨rfl, hl, unitOrZero2_rotated angle hl⟩
    | center inverted =>
        have hl : Vec2.unitOrZero (local_up2 (.center inverted) p) :=
          applyInverted2_unitOrZero (Vec2.normalized_or_zero2_unitOrZero p)
        exact ⟨rfl, hl, unitOrZero2_rotated angle hl⟩
    | shaped inverted =>
        have hl : Vec2.unitOrZero (local_up2 (.shaped inverted) p) := by
          show Vec2.unitOrZero (applyInverted2 inverted 0)
          unfold applyInverted2
          cases inverted
          · right; rfl
          · right; ext <;> simp
        exact ⟨rfl, hl, unitOrZero2_rotated angle hl⟩

/-- A bridge point whose referenced field always reports the unit up
`(0,1,0)`, used to instantiate the bridge hypothesis of C9. -/
noncomputable def c9point : BridgePoint3 :=
  { up := fun _ => ⟨0, 1, 0⟩
    rot := Rot3.idRot
    origin := 0
    local_plane := ⟨⟨0, 1, 0⟩, 0⟩ }

/-- C9 witness: a concrete bridge field over one unit-up referenced field,
with the identity world orientation, at the origin. -/
theorem claimC9_witness :
    global_up Rot3.idRot (.bridge [c9point]) 0
      = Rot3.idRot.f (local_up Rot3.idRot (.bridge [c9point]) 0) ∧
    Vec3.unitOrZero (local_up Rot3.idRot (.bridge [c9point]) 0) ∧
    Vec3.unitOrZero (global_up Rot3.idRot (.bridge [c9point]) 0) :=
  claimC9.1 Rot3.idRot (.bridge [c9point]) 0 (by
    intro bp hbp q
    have hb : bp = c9point := by simpa [bridgeRefs] using hbp
    rw [hb]
    left
    exact vnorm_010)

end GravityField
